import Mathlib

/-!
Verification of the Level-Up Fitness dashboard (Streamlit + Supabase app).

This file shallowly embeds the data model and the operations of the
repository: the authentication functions (`signup_user`, `login_user`,
the password-change form of `show_settings`), the profile and workout-log
data access (`save_user_profile`, `update_workout_log`,
`delete_workout_log`, the bulk clear in `show_settings`), the page router
(`main`), the completion-service wrapper (`call_groq`), the helper
conversions (`safe_int`, `safe_float`) and the best-effort text scan of
`show_ai_workout`.

Persisted Supabase tables are modelled as in-process lists of rows with a
server-assigned counter for new ids.  Python strings are manipulated as
`List Char`; the Python built-ins used by the source (`str.split`,
`in`, `str.lower`, `str.replace`, slicing, `int(...)`, `float(...)`)
are given structural translations below.  The SHA-256 digest of
`hash_password` is treated as an opaque deterministic function and passed
as a parameter `hash : String → String`; no property of the digest beyond
being a function is used.
-/

/-! ## Python string primitives over character lists -/

/-- Python `s.split(sep)` for a single-character separator: splits at every
occurrence, keeping empty segments (so `"".split(sep) = [""]`). -/
def splitOnChar (sep : Char) : List Char → List (List Char)
  | [] => [[]]
  | c :: rest =>
    let r := splitOnChar sep rest
    if c = sep then [] :: r
    else
      match r with
      | h :: t => (c :: h) :: t
      | [] => [[c]]

/-- Split at every whitespace character, keeping empty segments. -/
def splitByWhite : List Char → List (List Char)
  | [] => [[]]
  | c :: rest =>
    let r := splitByWhite rest
    if c.isWhitespace then [] :: r
    else
      match r with
      | h :: t => (c :: h) :: t
      | [] => [[c]]

/-- Python `s.split()` with no argument: split on whitespace runs and drop
empty segments. -/
def pyWords (cs : List Char) : List (List Char) :=
  (splitByWhite cs).filter (fun w => !w.isEmpty)

/-- `listPre pat cs` holds when `pat` is an initial segment of `cs`. -/
def listPre : List Char → List Char → Bool
  | [], _ => true
  | _ :: _, [] => false
  | p :: ps, c :: cs => p == c && listPre ps cs

/-- Python `pat in s` for strings: substring occurrence. -/
def hasSub (pat : List Char) : List Char → Bool
  | [] => listPre pat []
  | c :: cs => listPre pat (c :: cs) || hasSub pat cs

/-- Value of a digit list, most significant first (callers check digits). -/
def natVal (cs : List Char) : Nat :=
  cs.foldl (fun a c => a * 10 + (c.toNat - 48)) 0

/-- Digit-string value: `some` exactly when the list is a nonempty run of
decimal digits. -/
def digitsVal? (cs : List Char) : Option Nat :=
  if cs.isEmpty then none
  else if cs.all Char.isDigit then some (natVal cs)
  else none

/-- Python `int(s)` on a whitespace-free token: an optional sign followed by
decimal digits; anything else raises, modelled as `none`.  (Python also
strips surrounding whitespace and accepts `_` separators; the tokens fed to
this function by the source are produced by `str.split` and contain
neither.) -/
def pyInt? (cs : List Char) : Option Int :=
  match cs with
  | '+' :: rest => (digitsVal? rest).map (fun n => (n : Int))
  | '-' :: rest => (digitsVal? rest).map (fun n => -(n : Int))
  | _ => (digitsVal? cs).map (fun n => (n : Int))

/-- Plain decimal literal `ddd`, `ddd.ddd`, `ddd.` or `.ddd` as a rational;
`none` when the characters do not form one. -/
def pyDecimal? (cs : List Char) : Option ℚ :=
  match splitOnChar '.' cs with
  | [w] => (digitsVal? w).map (fun n => (n : ℚ))
  | [w, f] =>
    if (!w.isEmpty || !f.isEmpty) && w.all Char.isDigit && f.all Char.isDigit then
      some ((natVal w : ℚ) + (natVal f : ℚ) / ((10 : ℚ) ^ f.length))
    else none
  | _ => none

/-- Python `float(s)` restricted to plain decimal literals with an optional
sign; exponent forms, `inf` and `nan` are treated as unconvertible (they do
not arise from the widget values fed to it in the source). -/
def pyFloat? (cs : List Char) : Option ℚ :=
  match cs with
  | '+' :: rest => pyDecimal? rest
  | '-' :: rest => (pyDecimal? rest).map (fun q => -q)
  | _ => pyDecimal? cs

/-! ## `helpers.py`: `safe_int` and `safe_float`

Python runtime values that can reach the two helpers are modelled as a
closed sum: integers, floats (as rationals), strings, booleans and `None`.
`pyIntConv`/`pyFloatConv` are the fallible built-in conversions `int(v)` /
`float(v)` (`none` = the built-in raises); the helpers wrap them in the
source's `try`/`except` returning the caller-supplied default. -/

inductive PyValue where
  | intV (n : Int)
  | floatV (q : ℚ)
  | strV (s : String)
  | boolV (b : Bool)
  | noneV
deriving DecidableEq

/-- Python `int(float)` truncates toward zero. -/
def ratTrunc (q : ℚ) : Int := Int.tdiv q.num (q.den : Int)

/-- The built-in `int(value)`: `none` models a raised exception. -/
def pyIntConv : PyValue → Option Int
  | .intV n => some n
  | .floatV q => some (ratTrunc q)
  | .strV s => pyInt? s.data
  | .boolV b => some (if b then 1 else 0)
  | .noneV => none

/-- The built-in `float(value)`: `none` models a raised exception. -/
def pyFloatConv : PyValue → Option ℚ
  | .intV n => some (n : ℚ)
  | .floatV q => some q
  | .strV s => pyFloat? s.data
  | .boolV b => some (if b then 1 else 0)
  | .noneV => none

/-- `helpers.safe_int`: `int(value)` under `try`, the default on failure.
The source's default for `default` is `0`. -/
def safe_int (value : PyValue) (default : Int) : Int :=
  match pyIntConv value with
  | some n => n
  | none => default

/-- `helpers.safe_float`: `float(value)` under `try`, the default on
failure.  The source's default for `default` is `0.0`. -/
def safe_float (value : PyValue) (default : ℚ) : ℚ :=
  match pyFloatConv value with
  | some q => q
  | none => default

/-! ## `groq_api.call_groq`

The HTTP exchange is modelled by its observable outcome: either the POST
raised at the network level (timeout, connection failure — the message the
exception carries), or a response arrived with a status code, a body, and
the result of extracting `json()["choices"][0]["message"]["content"]`
(`Except.error` = that extraction raised, which the source's `except`
also catches). -/

inductive HttpOutcome where
  | response (status : Nat) (body : String) (extract : Except String String)
  | netFail (err : String)

/-- `groq_api.call_groq`, as a function of the exchange outcome.  Total:
every raised exception is caught and returned as an error-prefixed
string. -/
def call_groq (outcome : HttpOutcome) : String :=
  match outcome with
  | .response status body extract =>
    if status == 200 then
      match extract with
      | .ok content => content
      | .error e => "❌ Request failed: " ++ e
    else
      "❌ Error " ++ toString status ++ ": " ++ body
  | .netFail e => "❌ Request failed: " ++ e

/-! ## Users table and the auth service (`app.py`) -/

/-- A row of the `users` table: `signup_user` inserts `username`, the
digest of the password, and `email`; Supabase assigns `id`. -/
structure UserRec where
  id : Nat
  username : String
  password : String
  email : String
deriving DecidableEq

/-- The `users` table with the server's id counter. -/
structure UsersDb where
  rows : List UserRec
  nextId : Nat
deriving DecidableEq

/-- Result of `login_user`: the `(True, user)` / `(False, message)` pair of
the source. -/
inductive LoginResult where
  | ok (u : UserRec)
  | err (msg : String)
deriving DecidableEq

/-- Result of `signup_user`: the `(True, message)` / `(False, message)`
pair of the source. -/
inductive SignupResult where
  | ok (msg : String)
  | err (msg : String)
deriving DecidableEq

/-- `app.signup_user`: refuse when a row with the username exists, else
insert the username, the password digest and the email. -/
def signup_user (hash : String → String) (db : UsersDb)
    (username password email : String) : SignupResult × UsersDb :=
  if db.rows.any (fun r => r.username == username) then
    (.err "Username already exists", db)
  else
    let hashed_pw := hash password
    let newUser : UserRec :=
      { id := db.nextId, username := username, password := hashed_pw, email := email }
    (.ok "Signup successful! Please login.", { rows := db.rows ++ [newUser], nextId := db.nextId + 1 })

/-- `app.login_user`: select rows matching the username AND the password
digest; the first match on success, one fixed message otherwise. -/
def login_user (hash : String → String) (db : UsersDb)
    (username password : String) : LoginResult :=
  let hashed_pw := hash password
  match db.rows.filter (fun r => r.username == username && r.password == hashed_pw) with
  | [] => .err "Invalid username or password"
  | r :: _ => .ok r

/-- Outcome of the change-password form of `show_settings`; the
constructors name the three `st.error` branches and the success branch. -/
inductive PwResult where
  | wrongCurrent
  | mismatch
  | emptyNew
  | success
deriving DecidableEq

/-- The state the change-password form touches: the `users` table and the
in-memory session copy `st.session_state.user`. -/
structure AppState where
  users : UsersDb
  sessionUser : UserRec
deriving DecidableEq

/-- The change-password logic of `show_settings`: compare the digest of
the current password against the session copy's stored digest, then check
the confirmation, then non-emptiness; on success write the new digest both
to the `users` row with the session user's id and to the session copy. -/
def change_password (hash : String → String) (st : AppState)
    (current new confirm : String) : PwResult × AppState :=
  let hashed_current := hash current
  if hashed_current ≠ st.sessionUser.password then (.wrongCurrent, st)
  else if new ≠ confirm then (.mismatch, st)
  else if new = "" then (.emptyNew, st)
  else
    let hashed_new := hash new
    let rows := st.users.rows.map (fun r =>
      if r.id == st.sessionUser.id then { r with password := hashed_new } else r)
    (.success,
      { users := { rows := rows, nextId := st.users.nextId },
        sessionUser := { st.sessionUser with password := hashed_new } })

/-! ## Profiles table and `save_user_profile` (`app.py`)

The profile payload (name, age, gender, height, weight, target weight) is
kept abstract as a type parameter `α`: `save_user_profile` moves it around
without inspecting it. -/

/-- A row of the `profiles` table. -/
structure ProfileRow (α : Type) where
  id : Nat
  user_id : Nat
  fields : α
deriving DecidableEq

/-- The `profiles` table with the server's id counter. -/
structure ProfilesDb (α : Type) where
  rows : List (ProfileRow α)
  nextId : Nat
deriving DecidableEq

/-- `app.save_user_profile`: select by `user_id`; update every matching
row in place when one exists, else insert a new row carrying `user_id`.
Returns `res.data[0]` — the first stored row — and the new table. -/
def save_user_profile {α : Type} (uid : Nat) (data : α) (db : ProfilesDb α) :
    Option (ProfileRow α) × ProfilesDb α :=
  if db.rows.any (fun r => r.user_id == uid) then
    let rows := db.rows.map (fun r =>
      if r.user_id == uid then { r with fields := data } else r)
    ((rows.filter (fun r => r.user_id == uid)).head?, { rows := rows, nextId := db.nextId })
  else
    let newRow : ProfileRow α := { id := db.nextId, user_id := uid, fields := data }
    (some newRow, { rows := db.rows ++ [newRow], nextId := db.nextId + 1 })

/-! ## Workout-log table (`app-checkpoint.py`) -/

/-- The mutable columns of a `workout_logs` row, as written by
`save_workout_log`. -/
structure LogFields where
  date : String
  exercise : String
  sets : Int
  reps : Int
  weight : Option ℚ
  notes : String
  completed : Bool
deriving DecidableEq

/-- A row of the `workout_logs` table. -/
structure LogRow where
  id : Nat
  user_id : Nat
  fields : LogFields
deriving DecidableEq

/-- `get_workout_logs`: rows of the given user, optionally restricted to
one date (the `created_at` ordering is not modelled; no claim uses it). -/
def get_workout_logs (uid : Nat) (dateFilter : Option String) (db : List LogRow) :
    List LogRow :=
  db.filter (fun r =>
    r.user_id == uid &&
      (match dateFilter with
       | some d => r.fields.date == d
       | none => true))

/-- `update_workout_log`: update every row whose `id` equals `log_id` —
the query carries no `user_id` condition.  The patch dict is modelled as a
field transformer.  Returns `result.data[0]` and the new table. -/
def update_workout_log (log_id : Nat) (patch : LogFields → LogFields)
    (db : List LogRow) : Option LogRow × List LogRow :=
  let rows := db.map (fun r =>
    if r.id == log_id then { r with fields := patch r.fields } else r)
  ((rows.filter (fun r => r.id == log_id)).head?, rows)

/-- `delete_workout_log`: delete every row whose `id` equals `log_id` —
again with no `user_id` condition.  Returns `True` and the new table. -/
def delete_workout_log (log_id : Nat) (db : List LogRow) : Bool × List LogRow :=
  (true, db.filter (fun r => r.id != log_id))

/-! ## Bulk clear in `show_settings` (`app-checkpoint.py`) -/

/-- A row of the `workouts` (AI plan) table. -/
structure PlanRow where
  id : Nat
  user_id : Nat
  date : String
  plan : String
deriving DecidableEq

/-- The two tables the settings-page bulk delete touches. -/
structure WorkoutStore where
  workouts : List PlanRow
  workout_logs : List LogRow
deriving DecidableEq

/-- The bulk-delete block of `show_settings`: the delete statements run
only inside `if st.button(...)` and, nested in it, `if st.checkbox("I'm
sure ...")` — the checkbox is the explicit confirmation flag guarding the
data-layer calls.  When both hold, delete the user's rows from `workouts`
and `workout_logs`. -/
def clear_all_workout_data (clicked confirmed : Bool) (uid : Nat)
    (s : WorkoutStore) : WorkoutStore :=
  if clicked then
    if confirmed then
      { workouts := s.workouts.filter (fun r => r.user_id != uid),
        workout_logs := s.workout_logs.filter (fun r => r.user_id != uid) }
    else s
  else s

/-! ## The page router (`app-checkpoint.py`, `main`) -/

/-- The page states held in `st.session_state.current_page`. -/
inductive Page where
  | login
  | signup
  | profile
  | workout_log
  | ai_workout
  | ai_meal
  | progress
  | settings
deriving DecidableEq

/-- What one pass of `main` renders in the main content area. -/
inductive Rendered where
  | loginPage
  | signupPage
  | profilePage
  | workoutLogPage
  | aiWorkoutPage
  | aiMealPage
  | progressPage
  | settingsPage
  | nothing
deriving DecidableEq

/-- The render a page's own handler would produce. -/
def pageHandler : Page → Rendered
  | .login => .loginPage
  | .signup => .signupPage
  | .profile => .profilePage
  | .workout_log => .workoutLogPage
  | .ai_workout => .aiWorkoutPage
  | .ai_meal => .aiMealPage
  | .progress => .progressPage
  | .settings => .settingsPage

/-- `main`: when not logged in, an `if`/`elif` over `login`/`signup` with
no `else`; when logged in, an `if`/`elif` chain over the six authenticated
pages with no `else`.  A state not matched by its chain renders nothing. -/
def route (logged_in : Bool) (current_page : Page) : Rendered :=
  if !logged_in then
    match current_page with
    | .login => .loginPage
    | .signup => .signupPage
    | _ => .nothing
  else
    match current_page with
    | .profile => .profilePage
    | .workout_log => .workoutLogPage
    | .ai_workout => .aiWorkoutPage
    | .ai_meal => .aiMealPage
    | .progress => .progressPage
    | .settings => .settingsPage
    | _ => .nothing

/-! ## The best-effort text scan of `show_ai_workout` (`app-checkpoint.py`)

The scan walks the generated plan text line by line.  A line is considered
only when it contains an ASCII `'x'` and, additionally, either the
substring `"reps"` of its lowercasing or the character `'×'`.  Within such
a line it walks the whitespace-separated words; for a word containing
`'x'` or `'×'` it takes the words after the word's first occurrence in the
line, joined and cut to 30 characters, as the exercise name, and offers a
candidate when that name is longer than 2 characters.  Clicking the
offered button parses the word's first two `'x'`-separated segments with
`int(...)`; any raised exception skips the word (`except: continue`). -/

/-- A candidate entry the scan can append: (sets, reps, exercise name). -/
abbrev Candidate := Int × Int × String

/-- Python `list.index(x)`: position of the first element equal to `x`
(callers only use it when `x` occurs). -/
def firstIdx : List (List Char) → List Char → Nat
  | [], _ => 0
  | a :: t, x => if a = x then 0 else firstIdx t x + 1

/-- The button handler's parse: replace `'×'` by `'x'`, split on `'x'`,
convert the first two segments with `int(...)`. -/
def parse_sets_reps (w : List Char) : Option (Int × Int) :=
  let sr := w.map (fun c => if c = '×' then 'x' else c)
  match splitOnChar 'x' sr with
  | s :: r :: _ =>
    match pyInt? s, pyInt? r with
    | some a, some b => some (a, b)
    | _, _ => none
  | _ => none

/-- The word filter `'x' in part or '×' in part`. -/
def hasAnyX (w : List Char) : Bool :=
  w.any (fun c => c == 'x') || w.any (fun c => c == '×')

/-- One word's contribution: the exercise name (join of the words after
the word's first occurrence, cut to 30 characters), kept when longer than
2 characters and the sets×reps parse succeeds. -/
def mkCandidate (parts : List (List Char)) (w : List Char) : Option Candidate :=
  let ex := (List.intercalate [' '] (parts.drop (firstIdx parts w + 1))).take 30
  if 2 < ex.length then
    match parse_sets_reps w with
    | some (a, b) => some (a, b, String.mk ex)
    | none => none
  else none

/-- The inner `for part in parts` loop over the remaining words. -/
def partsCandidates (parts : List (List Char)) : List (List Char) → List Candidate
  | [] => []
  | w :: ws =>
    match (if hasAnyX w then mkCandidate parts w else none) with
    | some c => c :: partsCandidates parts ws
    | none => partsCandidates parts ws

/-- One line's candidates, under the line filter
`'x' in line and ('reps' in line.lower() or '×' in line)`. -/
def lineCandidates (line : List Char) : List Candidate :=
  if line.any (fun c => c == 'x') &&
      (hasSub "reps".data (line.map Char.toLower) || line.any (fun c => c == '×')) then
    let parts := pyWords line
    partsCandidates parts parts
  else []

/-- The outer `for line in result.split('\n')` loop. -/
def collectCandidates : List (List Char) → List Candidate
  | [] => []
  | l :: ls => lineCandidates l ++ collectCandidates ls

/-- The whole scan of a generated plan text. -/
def scan_workout_text (result : String) : List Candidate :=
  collectCandidates (splitOnChar '\n' result.data)

/-! ## Concrete fixtures used by witnesses and counterexamples -/

/-- A log payload for examples. -/
def exFields : LogFields :=
  { date := "2024-05-01", exercise := "Squats", sets := 3, reps := 10,
    weight := none, notes := "", completed := false }

/-- A workout-log row owned by user 2, with log id 7. -/
def exRowOther : LogRow := { id := 7, user_id := 2, fields := exFields }

/-- A workout-log row owned by user 1, with log id 9. -/
def exRowOwn : LogRow :=
  { id := 9, user_id := 1,
    fields := { date := "2024-05-01", exercise := "Push-ups", sets := 3, reps := 15,
                weight := none, notes := "", completed := false } }

/-- A user record for examples. -/
def exBob : UserRec := { id := 3, username := "bob", password := "secret", email := "" }

/-- A one-user table for the login example. -/
def exLoginDb : UsersDb := { rows := [exBob], nextId := 4 }

/-- An empty users table. -/
def exEmptyDb : UsersDb := { rows := [], nextId := 1 }

/-- A session user whose stored digest is the identity digest of `"old"`. -/
def exUser : UserRec := { id := 1, username := "alice", password := "old", email := "" }

/-- App state for the change-password example. -/
def exAppState : AppState := { users := { rows := [exUser], nextId := 2 }, sessionUser := exUser }

/-- An AI-plan row owned by user 1. -/
def exPlan : PlanRow := { id := 1, user_id := 1, date := "2024-05-01", plan := "plan text" }

/-- A store for the bulk-delete example. -/
def exStore : WorkoutStore := { workouts := [exPlan], workout_logs := [exRowOwn] }

/-- An empty profiles table over a `Nat` payload. -/
def exProfilesDb : ProfilesDb Nat := { rows := [], nextId := 0 }

/-! ## Shared list lemmas -/

theorem filter_eq_nil_of_all_false {α : Type} (p : α → Bool) (l : List α)
    (h : ∀ a ∈ l, p a = false) : l.filter p = [] := by
  induction l with
  | nil => rfl
  | cons a t ih =>
    have ha := h a (List.mem_cons_self a t)
    simp [List.filter_cons, ha, ih (fun b hb => h b (List.mem_cons_of_mem a hb))]

theorem map_eq_self_of_fix {α : Type} (g : α → α) (l : List α)
    (h : ∀ a ∈ l, g a = a) : l.map g = l := by
  induction l with
  | nil => rfl
  | cons a t ih =>
    simp [h a (List.mem_cons_self a t), ih (fun b hb => h b (List.mem_cons_of_mem a hb))]

theorem any_eq_false_of_all_false {α : Type} (p : α → Bool) (l : List α)
    (h : ∀ a ∈ l, p a = false) : l.any p = false := by
  induction l with
  | nil => rfl
  | cons a t ih =>
    simp [List.any_cons, h a (List.mem_cons_self a t),
      ih (fun b hb => h b (List.mem_cons_of_mem a hb))]

/-! ## C1: scoping of workout-log mutation -/

/-- C1 counterexample: the claim "update_workout_log(id, patch) and
delete_workout_log(id) mutate only rows whose user_id equals the calling
user's id" is false.  Neither query carries a `user_id` condition: with
calling user 1 and a table holding only log id 7 owned by user 2, deleting
log id 7 removes user 2's row and patching it rewrites user 2's row. -/
theorem c1_cross_user_mutation :
    exRowOther.user_id = 2 ∧ (2 : Nat) ≠ 1 ∧
    (delete_workout_log 7 [exRowOther]).2 = [] ∧
    (update_workout_log 7 (fun f => { f with completed := true }) [exRowOther]).2 =
      [{ id := 7, user_id := 2, fields := { exFields with completed := true } }] := by
  decide

/-- C1 (amended): `update_workout_log` and `delete_workout_log` are scoped
by log id only, not by user: rows whose id differs from the given log id
are never touched, every row deleted had the given id, and every row of
the updated table is either an original row or the patch of an original
row carrying the given id — whoever owns it.  (The UI only passes ids
obtained from `get_workout_logs` of the session user, but the data layer
itself does not check ownership.) -/
theorem c1_scoped_by_id_only (db : List LogRow) (log_id : Nat)
    (patch : LogFields → LogFields) :
    (∀ r ∈ db, r.id ≠ log_id →
      r ∈ (update_workout_log log_id patch db).2 ∧
      r ∈ (delete_workout_log log_id db).2) ∧
    (∀ r ∈ (delete_workout_log log_id db).2, r ∈ db ∧ r.id ≠ log_id) ∧
    (∀ r ∈ (update_workout_log log_id patch db).2,
      r ∈ db ∨ ∃ r0 ∈ db, r0.id = log_id ∧ r = { r0 with fields := patch r0.fields }) := by
  refine ⟨?_, ?_, ?_⟩
  · intro r hr hne
    refine ⟨List.mem_map.mpr ⟨r, hr, by simp [hne]⟩, List.mem_filter.mpr ⟨hr, by simp [hne]⟩⟩
  · intro r hr
    have h := List.mem_filter.mp hr
    exact ⟨h.1, by simpa using h.2⟩
  · intro r hr
    obtain ⟨r0, hr0, heq⟩ := List.mem_map.mp hr
    by_cases h0 : r0.id = log_id
    · right
      exact ⟨r0, hr0, h0, by rw [← heq]; simp [h0]⟩
    · left
      rw [← heq]
      simpa [h0] using hr0
  
/-- C1 witness: a row of user 1 with a different log id survives the
delete of log id 7. -/
theorem c1_scoped_by_id_only_witness :
    exRowOwn ∈ (delete_workout_log 7 [exRowOther, exRowOwn]).2 :=
  ((c1_scoped_by_id_only [exRowOther, exRowOwn] 7 (fun f => f)).1
    exRowOwn (by decide) (by decide)).2

/-! ## C2: the router while unauthenticated -/

/-- C2 counterexample: the claim says an unauthenticated render attempt of
a protected page is "refused and the login page is shown instead".  With
`logged_in = false` and `current_page = profile`, `main`'s unauthenticated
`if`/`elif` chain matches neither branch and renders nothing at all — the
login page is not shown. -/
theorem c2_no_login_redirect :
    route false Page.profile = Rendered.nothing ∧
    route false Page.profile ≠ Rendered.loginPage := by decide

/-- C2 (amended): for every page state other than login and signup, the
router never runs that page's handler while unauthenticated — the render
is refused — but nothing is rendered in its place rather than the login
page. -/
theorem c2_unauth_refused (p : Page) (h1 : p ≠ Page.login) (h2 : p ≠ Page.signup) :
    route false p ≠ pageHandler p ∧ route false p = Rendered.nothing := by
  cases p
  · exact absurd rfl h1
  · exact absurd rfl h2
  all_goals exact ⟨by decide, by decide⟩

/-- C2 witness: the settings page while unauthenticated. -/
theorem c2_unauth_refused_witness :
    route false Page.settings ≠ pageHandler Page.settings ∧
    route false Page.settings = Rendered.nothing :=
  c2_unauth_refused Page.settings (by decide) (by decide)

/-! ## C3: login failure indistinguishability -/

/-- C3: when username `u1` exists but its stored digest differs from the
digest of `p1`, and username `u2` matches no row, `login_user` returns the
same single error value for both calls — the fixed message
"Invalid username or password"; the two failure causes are
indistinguishable from the result. -/
theorem c3_login_indistinguishable (hash : String → String) (db : UsersDb)
    (u1 p1 u2 p2 : String)
    (hexists : ∃ r ∈ db.rows, r.username = u1)
    (hwrong : ∀ r ∈ db.rows, r.username = u1 → r.password ≠ hash p1)
    (hnouser : ∀ r ∈ db.rows, r.username ≠ u2) :
    login_user hash db u1 p1 = LoginResult.err "Invalid username or password" ∧
    login_user hash db u1 p1 = login_user hash db u2 p2 := by
  have h1 : db.rows.filter (fun r => r.username == u1 && r.password == hash p1) = [] := by
    apply filter_eq_nil_of_all_false
    intro r hr
    by_cases hu : r.username = u1
    · simp [hu, hwrong r hr hu]
    · simp [hu]
  have h2 : db.rows.filter (fun r => r.username == u2 && r.password == hash p2) = [] := by
    apply filter_eq_nil_of_all_false
    intro r hr
    simp [hnouser r hr]
  refine ⟨?_, ?_⟩
  · simp only [login_user, h1]
  · simp only [login_user, h1, h2]

/-- C3 witness: wrong password for the existing user "bob" and any
password for the absent user "carol", under the identity digest. -/
theorem c3_login_indistinguishable_witness :
    login_user (fun s => s) exLoginDb "bob" "wrong" =
      LoginResult.err "Invalid username or password" ∧
    login_user (fun s => s) exLoginDb "bob" "wrong" =
      login_user (fun s => s) exLoginDb "carol" "secret" :=
  c3_login_indistinguishable (fun s => s) exLoginDb "bob" "wrong" "carol" "secret"
    (by decide) (by decide) (by decide)

/-! ## C4: the bulk delete fails closed -/

/-- C4: the bulk delete of `show_settings` runs only inside the
confirmation checkbox's `if`; without the confirmation flag (or without
the button click) it executes nothing — the store is unchanged, with no
partial delete.  With both flags it deletes exactly the calling user's
rows from `workouts` and `workout_logs`, keeping every other user's row. -/
theorem c4_clear_fails_closed (clicked confirmed : Bool) (uid : Nat) (s : WorkoutStore) :
    (confirmed = false → clear_all_workout_data clicked confirmed uid s = s) ∧
    (clicked = false → clear_all_workout_data clicked confirmed uid s = s) ∧
    (clicked = true → confirmed = true →
      (∀ r ∈ (clear_all_workout_data clicked confirmed uid s).workouts, r.user_id ≠ uid) ∧
      (∀ r ∈ (clear_all_workout_data clicked confirmed uid s).workout_logs, r.user_id ≠ uid) ∧
      (∀ r ∈ s.workouts, r.user_id ≠ uid →
        r ∈ (clear_all_workout_data clicked confirmed uid s).workouts) ∧
      (∀ r ∈ s.workout_logs, r.user_id ≠ uid →
        r ∈ (clear_all_workout_data clicked confirmed uid s).workout_logs)) := by
  refine ⟨?_, ?_, ?_⟩
  · intro h
    subst h
    cases clicked <;> simp [clear_all_workout_data]
  · intro h
    subst h
    simp [clear_all_workout_data]
  · intro hc hcf
    subst hc
    subst hcf
    refine ⟨?_, ?_, ?_, ?_⟩
    · intro r hr
      have h := List.mem_filter.mp hr
      simpa using h.2
    · intro r hr
      have h := List.mem_filter.mp hr
      simpa using h.2
    · intro r hr hne
      exact List.mem_filter.mpr ⟨hr, by simp [hne]⟩
    · intro r hr hne
      exact List.mem_filter.mpr ⟨hr, by simp [hne]⟩

/-- C4 witness: without confirmation the store is untouched even though
the button was clicked. -/
theorem c4_clear_fails_closed_witness :
    clear_all_workout_data true false 1 exStore = exStore :=
  (c4_clear_fails_closed true false 1 exStore).1 rfl

/-! ## C6: completion-call error surfacing -/

/-- C6: for every outcome of the HTTP exchange, a non-2xx response makes
`call_groq` return exactly the error string carrying the upstream status
and body, and a network-level failure makes it return the error string
carrying the exception text; both begin with the `"❌"` marker.  The
function is total — no exception escapes the call boundary. -/
theorem c6_error_marker (o : HttpOutcome) :
    (∀ status body extract, o = HttpOutcome.response status body extract →
      status < 200 ∨ 300 ≤ status →
      call_groq o = "❌ Error " ++ toString status ++ ": " ++ body ∧
      ∃ rest, call_groq o = "❌" ++ rest) ∧
    (∀ e, o = HttpOutcome.netFail e →
      call_groq o = "❌ Request failed: " ++ e ∧
      ∃ rest, call_groq o = "❌" ++ rest) := by
  constructor
  · intro status body extract ho hbad
    subst ho
    have hne : (status == 200) = false := by
      simp only [beq_eq_false_iff_ne]
      omega
    have hmain : call_groq (HttpOutcome.response status body extract) =
        "❌ Error " ++ toString status ++ ": " ++ body := by
      simp [call_groq, hne]
    refine ⟨hmain, " Error " ++ toString status ++ ": " ++ body, ?_⟩
    rw [hmain, show ("❌ Error " : String) = "❌" ++ " Error " from rfl]
    simp only [String.append_assoc]
  · intro e ho
    subst ho
    have hmain : call_groq (HttpOutcome.netFail e) = "❌ Request failed: " ++ e := rfl
    refine ⟨hmain, " Request failed: " ++ e, ?_⟩
    rw [hmain, show ("❌ Request failed: " : String) = "❌" ++ " Request failed: " from rfl]
    simp only [String.append_assoc]

/-- C6 witness: an HTTP 500 response surfaces status and body behind the
error marker. -/
theorem c6_error_marker_witness :
    call_groq (HttpOutcome.response 500 "Internal Server Error" (Except.error "boom")) =
      "❌ Error 500: Internal Server Error" := by
  have h := ((c6_error_marker
      (HttpOutcome.response 500 "Internal Server Error" (Except.error "boom"))).1
    500 "Internal Server Error" (Except.error "boom") rfl (Or.inr (by omega))).1
  exact h.trans (by decide)

/-! ## C7: profile upsert is idempotent by user -/

/-- C7: starting from a table with no profile row for `uid`, saving twice
with the same `uid` leaves exactly one stored row for `uid`; its fields
are those of the second call and its id is the one assigned by the first
call's insert — the first save inserts, the second updates in place. -/
theorem c7_upsert_idempotent {α : Type} (db : ProfilesDb α) (uid : Nat) (f1 f2 : α)
    (h : ∀ r ∈ db.rows, r.user_id ≠ uid) :
    ((save_user_profile uid f2 (save_user_profile uid f1 db).2).2.rows.filter
        (fun r => r.user_id == uid)).length = 1 ∧
    ∀ r ∈ (save_user_profile uid f2 (save_user_profile uid f1 db).2).2.rows,
      r.user_id = uid → r.fields = f2 ∧ r.id = db.nextId := by
  have hany : db.rows.any (fun r => r.user_id == uid) = false :=
    any_eq_false_of_all_false _ _ (fun r hr => by simp [h r hr])
  have hd1 : (save_user_profile uid f1 db).2 =
      { rows := db.rows ++ [{ id := db.nextId, user_id := uid, fields := f1 }],
        nextId := db.nextId + 1 } := by
    simp [save_user_profile, hany]
  have hrows : (save_user_profile uid f2 (save_user_profile uid f1 db).2).2.rows =
      db.rows ++ [{ id := db.nextId, user_id := uid, fields := f2 }] := by
    rw [hd1]
    have hany2 : ((db.rows ++ [({ id := db.nextId, user_id := uid, fields := f1 } :
        ProfileRow α)]).any (fun r => r.user_id == uid)) = true := by
      simp [List.any_append]
    simp only [save_user_profile, hany2, if_true, List.map_append]
    rw [map_eq_self_of_fix _ _ (fun r hr => by simp [h r hr])]
    simp
  constructor
  · rw [hrows, List.filter_append,
      filter_eq_nil_of_all_false _ _ (fun r hr => by simp [h r hr])]
    simp
  · intro r hr hu
    rw [hrows] at hr
    rcases List.mem_append.mp hr with h1 | h2
    · exact absurd hu (h r h1)
    · have : r = { id := db.nextId, user_id := uid, fields := f2 } := by simpa using h2
      rw [this]
      exact ⟨rfl, rfl⟩

/-- C7 witness: two saves for user 5 starting from an empty table leave
exactly one row for user 5. -/
theorem c7_upsert_idempotent_witness :
    ((save_user_profile 5 2 (save_user_profile 5 1 exProfilesDb).2).2.rows.filter
        (fun r => r.user_id == 5)).length = 1 :=
  (c7_upsert_idempotent exProfilesDb 5 1 2 (by decide)).1

/-! ## C8: signup followed by login succeeds -/

/-- C8: when username `u` is not already taken, `signup_user u p` succeeds
and a subsequent `login_user u p` against the resulting table returns a
user record whose username is `u`. -/
theorem c8_signup_then_login (hash : String → String) (db : UsersDb)
    (u p email : String) (hfree : ∀ r ∈ db.rows, r.username ≠ u) :
    (∃ msg, (signup_user hash db u p email).1 = SignupResult.ok msg) ∧
    ∃ usr, login_user hash (signup_user hash db u p email).2 u p = LoginResult.ok usr ∧
      usr.username = u := by
  have hany : db.rows.any (fun r => r.username == u) = false :=
    any_eq_false_of_all_false _ _ (fun r hr => by simp [hfree r hr])
  have hsign : signup_user hash db u p email =
      (SignupResult.ok "Signup successful! Please login.",
        { rows := db.rows ++
            [{ id := db.nextId, username := u, password := hash p, email := email }],
          nextId := db.nextId + 1 }) := by
    simp [signup_user, hany]
  refine ⟨⟨"Signup successful! Please login.", by rw [hsign]⟩, ?_⟩
  have hfilter : (db.rows ++
      [({ id := db.nextId, username := u, password := hash p, email := email } :
        UserRec)]).filter (fun r => r.username == u && r.password == hash p) =
      [{ id := db.nextId, username := u, password := hash p, email := email }] := by
    rw [List.filter_append,
      filter_eq_nil_of_all_false _ _ (fun r hr => by simp [hfree r hr])]
    simp
  refine ⟨{ id := db.nextId, username := u, password := hash p, email := email }, ?_, rfl⟩
  rw [hsign]
  simp only [login_user, hfilter]

/-- C8 witness: signup then login for "dana" on an empty table, under the
identity digest. -/
theorem c8_signup_then_login_witness :
    ∃ usr, login_user (fun s => s)
        (signup_user (fun s => s) exEmptyDb "dana" "pw" "").2 "dana" "pw" =
      LoginResult.ok usr ∧ usr.username = "dana" :=
  (c8_signup_then_login (fun s => s) exEmptyDb "dana" "pw" "" (by decide)).2

/-! ## C9: change-password error cases and atomicity -/

/-- C9: the change-password form fails with the wrong-current-password
error when the digest of the entered current password differs from the
session copy's stored digest; past that check, with the mismatch error
when new and confirm differ; past that, with the empty-password error
when the new password is empty.  On success both the stored row with the
session user's id and the in-memory session copy carry the new digest;
in every case either both carry it or the whole state is unchanged —
both or neither. -/
theorem c9_change_password_cases (hash : String → String) (st : AppState)
    (current new confirm : String) :
    (hash current ≠ st.sessionUser.password →
      change_password hash st current new confirm = (PwResult.wrongCurrent, st)) ∧
    (hash current = st.sessionUser.password → new ≠ confirm →
      change_password hash st current new confirm = (PwResult.mismatch, st)) ∧
    (hash current = st.sessionUser.password → new = confirm → new = "" →
      change_password hash st current new confirm = (PwResult.emptyNew, st)) ∧
    (hash current = st.sessionUser.password → new = confirm → new ≠ "" →
      (change_password hash st current new confirm).1 = PwResult.success ∧
      (change_password hash st current new confirm).2.sessionUser.password = hash new ∧
      ∀ r ∈ (change_password hash st current new confirm).2.users.rows,
        r.id = st.sessionUser.id → r.password = hash new) ∧
    ((change_password hash st current new confirm).2 = st ∨
      ((change_password hash st current new confirm).2.sessionUser.password = hash new ∧
       ∀ r ∈ (change_password hash st current new confirm).2.users.rows,
         r.id = st.sessionUser.id → r.password = hash new)) := by
  by_cases h1 : hash current = st.sessionUser.password
  · by_cases h2 : new = confirm
    · subst h2
      by_cases h3 : new = ""
      · have hcp : change_password hash st current new new = (PwResult.emptyNew, st) := by
          simp [change_password, h1, h3]
        exact ⟨fun hc => absurd h1 hc, fun _ hc => absurd rfl hc, fun _ _ _ => hcp,
          fun _ _ hc => absurd h3 hc, Or.inl (by rw [hcp])⟩
      · have hcp : change_password hash st current new new =
            (PwResult.success,
              { users :=
                  { rows := st.users.rows.map (fun r =>
                      if r.id == st.sessionUser.id then { r with password := hash new } else r),
                    nextId := st.users.nextId },
                sessionUser := { st.sessionUser with password := hash new } }) := by
          simp [change_password, h1, h3]
        have hrows : ∀ r ∈ (change_password hash st current new new).2.users.rows,
            r.id = st.sessionUser.id → r.password = hash new := by
          rw [hcp]
          intro r hr hid
          obtain ⟨r0, hr0, heq⟩ := List.mem_map.mp hr
          by_cases h0 : r0.id = st.sessionUser.id
          · rw [← heq]
            simp [h0]
          · rw [← heq] at hid
            simp [h0] at hid
        refine ⟨fun hc => absurd h1 hc, fun _ hc => absurd rfl hc,
          fun _ _ hc => absurd hc h3, fun _ _ _ => ⟨by rw [hcp], by rw [hcp], hrows⟩,
          Or.inr ⟨by rw [hcp], hrows⟩⟩
    · have hcp : change_password hash st current new confirm = (PwResult.mismatch, st) := by
        simp [change_password, h1, h2]
      exact ⟨fun hc => absurd h1 hc, fun _ _ => hcp, fun _ hc => absurd hc h2,
        fun _ hc => absurd hc h2, Or.inl (by rw [hcp])⟩
  · have hcp : change_password hash st current new confirm = (PwResult.wrongCurrent, st) := by
      simp [change_password, h1]
    exact ⟨fun _ => hcp, fun hc => absurd hc h1, fun hc => absurd hc h1,
      fun hc => absurd hc h1, Or.inl (by rw [hcp])⟩

/-- C9 witness: a successful change for the session user "alice" under the
identity digest updates both copies. -/
theorem c9_change_password_cases_witness :
    (change_password (fun s => s) exAppState "old" "npw" "npw").1 = PwResult.success ∧
    (change_password (fun s => s) exAppState "old" "npw" "npw").2.sessionUser.password =
      "npw" := by
  have h := (c9_change_password_cases (fun s => s) exAppState "old" "npw" "npw").2.2.2.1
    rfl rfl (by decide)
  exact ⟨h.1, h.2.1⟩

/-! ## C10: totality of the safe conversions -/

/-- C10: `safe_int` and `safe_float` are total: whenever the built-in
conversion succeeds they return its value, whenever it raises they return
the caller's default (`0` / `0.0` when not given), and being total Lean
functions they raise nothing. -/
theorem c10_safe_conversions_total (v : PyValue) (di : Int) (df : ℚ) :
    (∀ n, pyIntConv v = some n → safe_int v di = n) ∧
    (pyIntConv v = none → safe_int v di = di) ∧
    (∀ q, pyFloatConv v = some q → safe_float v df = q) ∧
    (pyFloatConv v = none → safe_float v df = df) := by
  refine ⟨?_, ?_, ?_, ?_⟩
  · intro n hn
    simp [safe_int, hn]
  · intro hn
    simp [safe_int, hn]
  · intro q hq
    simp [safe_float, hq]
  · intro hq
    simp [safe_float, hq]

/-- C10 witness: convertible and unconvertible inputs with default 0. -/
theorem c10_safe_conversions_total_witness :
    safe_int (PyValue.strV "42") 0 = 42 ∧
    safe_int (PyValue.strV "abc") 0 = 0 ∧
    safe_float (PyValue.strV "abc") 0 = 0 :=
  ⟨(c10_safe_conversions_total (PyValue.strV "42") 0 0).1 42 (by decide),
   (c10_safe_conversions_total (PyValue.strV "abc") 0 0).2.1 (by decide),
   (c10_safe_conversions_total (PyValue.strV "abc") 0 0).2.2.2 (by decide)⟩

/-! ## C5: the text-scan heuristic -/

theorem mem_collectCandidates (c : Candidate) (ls : List (List Char))
    (h : c ∈ collectCandidates ls) : ∃ l ∈ ls, c ∈ lineCandidates l := by
  induction ls with
  | nil => cases h
  | cons l ls ih =>
    rw [collectCandidates] at h
    rcases List.mem_append.mp h with h1 | h2
    · exact ⟨l, List.mem_cons_self l ls, h1⟩
    · obtain ⟨l', hl', hc⟩ := ih h2
      exact ⟨l', List.mem_cons_of_mem l hl', hc⟩

theorem mem_partsCandidates (c : Candidate) (parts : List (List Char))
    (ws : List (List Char)) (h : c ∈ partsCandidates parts ws) :
    ∃ w ∈ ws, hasAnyX w = true ∧ mkCandidate parts w = some c := by
  induction ws with
  | nil => cases h
  | cons w ws ih =>
    rw [partsCandidates] at h
    by_cases hx : hasAnyX w
    · rw [if_pos hx] at h
      cases hmk : mkCandidate parts w with
      | none =>
        rw [hmk] at h
        obtain ⟨w', hw', hprop⟩ := ih h
        exact ⟨w', List.mem_cons_of_mem w hw', hprop⟩
      | some c' =>
        rw [hmk] at h
        rcases List.mem_cons.mp h with hc | h2
        · subst hc
          exact ⟨w, List.mem_cons_self w ws, hx, hmk⟩
        · obtain ⟨w', hw', hprop⟩ := ih h2
          exact ⟨w', List.mem_cons_of_mem w hw', hprop⟩
    · rw [if_neg hx] at h
      obtain ⟨w', hw', hprop⟩ := ih h
      exact ⟨w', List.mem_cons_of_mem w hw', hprop⟩

theorem mkCandidate_parse (parts : List (List Char)) (w : List Char) (c : Candidate)
    (h : mkCandidate parts w = some c) : parse_sets_reps w = some (c.1, c.2.1) := by
  simp only [mkCandidate] at h
  by_cases hl : 2 <
      ((List.intercalate [' '] (parts.drop (firstIdx parts w + 1))).take 30).length
  · rw [if_pos hl] at h
    cases hp : parse_sets_reps w with
    | none =>
      rw [hp] at h
      cases h
    | some ab =>
      rw [hp] at h
      cases ab with
      | mk a b =>
        have hc : c = (a, b,
            String.mk ((List.intercalate [' ']
              (parts.drop (firstIdx parts w + 1))).take 30)) := by
          exact (Option.some.injEq _ _ ▸ h).symm
        rw [hc]
  · rw [if_neg hl] at h
    cases h

/-- C5 counterexample: the claim says the line "3x10 Push-ups" yields a
(sets=3, reps=10) candidate.  It does not: the line filter of the scan is
`'x' in line and ('reps' in line.lower() or '×' in line)`, and
"3x10 Push-ups" contains neither the substring "reps" nor the character
'×', so the whole line is skipped and no candidate is produced. -/
theorem c5_pushups_no_candidate : scan_workout_text "3x10 Push-ups" = [] := by decide

/-- C5 (amended): a line passing the filter — containing ASCII 'x' and
either the substring "reps" of its lowercasing or '×' — such as
"3x10 reps Push-ups" yields the candidate (sets=3, reps=10, exercise =
the words after the token, here "reps Push-ups"); the line
"3x10 Push-ups" yields no candidate because it fails that filter;
"Warm-up: light jog" yields no candidate; and for every input text, every
produced candidate's sets and reps come from a whitespace-separated token
of some line that parses as integer-'x'-integer after replacing '×' by
'x' — no candidate is fabricated from a line without such a token. -/
theorem c5_scan_behavior :
    scan_workout_text "3x10 reps Push-ups" = [(3, 10, "reps Push-ups")] ∧
    scan_workout_text "3x10 Push-ups" = [] ∧
    scan_workout_text "Warm-up: light jog" = [] ∧
    ∀ (t : String) (c : Candidate), c ∈ scan_workout_text t →
      ∃ line ∈ splitOnChar '\n' t.data, ∃ w ∈ pyWords line,
        parse_sets_reps w = some (c.1, c.2.1) := by
  refine ⟨by decide, by decide, by decide, ?_⟩
  intro t c hc
  obtain ⟨line, hline, hcl⟩ := mem_collectCandidates c _ hc
  rw [lineCandidates] at hcl
  split at hcl
  · obtain ⟨w, hw, _, hmk⟩ := mem_partsCandidates c _ _ hcl
    exact ⟨line, hline, w, hw, mkCandidate_parse _ _ _ hmk⟩
  · cases hcl

/-- C5 witness: the candidate from "3x10 reps Push-ups" comes from the
token "3x10", which parses as 3 sets and 10 reps. -/
theorem c5_scan_behavior_witness :
    ∃ line ∈ splitOnChar '\n' ("3x10 reps Push-ups" : String).data,
      ∃ w ∈ pyWords line, parse_sets_reps w = some ((3 : Int), (10 : Int)) :=
  c5_scan_behavior.2.2.2 "3x10 reps Push-ups" (3, 10, "reps Push-ups") (by decide)
